import Mathlib

/-!
Shallow embedding of the portfolio-SaaS backend (`src/main.py`, `src/schemas.py`).

Collections of the document store are lists of stored documents; a stored
document carries an object id (`oid`, Mongo's `_id`) next to the document body,
and the `{"_id": 0}` projection used by the handlers corresponds to returning
only the body.  Timestamps (`time.time()`) are rationals.  Values fetched from
the OAuth provider (token-exchange response, user profile, e-mail list), the
freshly generated session token and the current time are inputs of the
callback model, since the source obtains them from the outside world.
-/

namespace PortfolioApp

/-- A stored document: Mongo keeps an `_id` next to the fields; handlers that
project with `{"_id": 0}` return only `doc`. -/
structure Stored (α : Type) where
  oid : Nat
  doc : α
  deriving Repr, DecidableEq

/-- `schemas.Developer`: the "developer" collection schema. -/
structure Developer where
  username : String
  name : Option String := none
  email : Option String := none
  avatar_url : Option String := none
  bio : Option String := none
  company : Option String := none
  location : Option String := none
  blog : Option String := none
  twitter_username : Option String := none
  html_url : Option String := none
  public_repos : Option Int := some 0
  deriving Repr, DecidableEq

/-- A document of the "session" collection.  `schemas.Session` requires
`expires_at`, but `get_current_user` reads it defensively with
`sess.get("expires_at", 0)`, so the stored form keeps it optional; every
session the code writes carries `some` expiry. -/
structure SessionDoc where
  token : String
  user_id : String
  expires_at : Option ℚ
  deriving Repr, DecidableEq

/-- A free-form JSON object (a Python `dict`), as far as the claims need it. -/
abbrev Dict := List (String × String)

/-- `schemas.Portfolio`: the "portfolio" collection schema, with its field
defaults (`Portfolio(username=u).model_dump()` is `{ username := u }` here). -/
structure Portfolio where
  username : String
  headline : Option String := some "Building with code."
  subheadline : Option String := some "Developer portfolio powered by GitHub."
  sections : List Dict := []
  theme : Dict := [("accent", "#3b82f6")]
  deriving Repr, DecidableEq

/-- The document store: the three collections plus a counter supplying fresh
object ids for inserts. -/
structure DB where
  developer : List (Stored Developer)
  session : List (Stored SessionDoc)
  portfolio : List (Stored Portfolio)
  nextOid : Nat
  deriving Repr, DecidableEq

/-- An `HTTPException(status, detail)`. -/
structure HErr where
  status : Nat
  detail : String
  deriving Repr, DecidableEq

/-- Replace the body of the first document matching `pred` by `f` applied to
it (keeping its `_id`); `none` when no document matches. -/
def replaceFirst {α : Type} (pred : α → Bool) (f : α → α) :
    List (Stored α) → Option (List (Stored α))
  | [] => none
  | s :: rest =>
    if pred s.doc then some ({ oid := s.oid, doc := f s.doc } :: rest)
    else
      match replaceFirst pred f rest with
      | some l => some (s :: l)
      | none => none

/-- Mongo `update_one(filter, update, upsert=True)`: apply `f` to the first
document matching the filter, or, if none matches, insert `onInsert` with a
fresh object id.  `$set` of a full model dump is `f := fun _ => newDoc`,
`$setOnInsert` is `f := fun d => d`, a partial `$set` is a merge function. -/
def updateOne {α : Type} (pred : α → Bool) (f : α → α) (onInsert : α) (oid : Nat)
    (l : List (Stored α)) : List (Stored α) :=
  match replaceFirst pred f l with
  | some l2 => l2
  | none => l ++ [⟨oid, onInsert⟩]

/-- The token-exchange response from `POST github.com/login/oauth/access_token`:
its HTTP status and the `access_token` field of its JSON body (`none` when the
field is absent). -/
structure TokenResp where
  status : Nat
  access_token : Option String
  deriving Repr, DecidableEq

/-- The profile fetched from `api.github.com/user` (fields read via `.get`). -/
structure GhUser where
  login : String
  name : Option String := none
  avatar_url : Option String := none
  bio : Option String := none
  company : Option String := none
  location : Option String := none
  blog : Option String := none
  twitter_username : Option String := none
  html_url : Option String := none
  public_repos : Option Int := none
  deriving Repr, DecidableEq

/-- One entry of the `api.github.com/user/emails` response. -/
structure EmailEntry where
  email : Option String
  primary : Bool
  deriving Repr, DecidableEq

/-- `primary_email` computation of the callback: `none` when the response is
not a list or the list is empty; otherwise the e-mail of the first entry
marked primary, falling back to the first entry. -/
def primaryEmail : Option (List EmailEntry) → Option String
  | none => none
  | some [] => none
  | some (e0 :: rest) => (((e0 :: rest).find? (fun e => e.primary)).getD e0).email

/-- The `Developer(...)` built by the callback from the fetched profile and
the computed primary e-mail. -/
def devOfGh (u : GhUser) (email : Option String) : Developer :=
  { username := u.login, name := u.name, email := email,
    avatar_url := u.avatar_url, bio := u.bio, company := u.company,
    location := u.location, blog := u.blog,
    twitter_username := u.twitter_username, html_url := u.html_url,
    public_repos := u.public_repos }

/-- The outside-world inputs of one `github_auth_callback` run: the exchange
response, the fetched profile and e-mails, the token produced by
`secrets.token_urlsafe(32)`, and `time.time()` at issuance. -/
structure CallbackInput where
  tokenResp : TokenResp
  ghUser : GhUser
  emails : Option (List EmailEntry)
  freshToken : String
  now : ℚ
  deriving Repr, DecidableEq

/-- `60 * 60 * 24 * 7` seconds, the session lifetime. -/
def sevenDays : ℚ := 60 * 60 * 24 * 7

/-- The three writes of a successful callback, in source order: upsert the
developer by username (`$set` full dump), upsert the session by `user_id`
(`$set` full dump), ensure the portfolio exists (`$setOnInsert` of the
defaults, a no-op on a matching document). -/
def callbackDB (inp : CallbackInput) (db : DB) : DB :=
  let dev := devOfGh inp.ghUser (primaryEmail inp.emails)
  let db1 : DB :=
    { db with
      developer := updateOne (fun d => d.username == dev.username)
        (fun _ => dev) dev db.nextOid db.developer,
      nextOid := db.nextOid + 1 }
  let sess : SessionDoc :=
    { token := inp.freshToken, user_id := dev.username,
      expires_at := some (inp.now + sevenDays) }
  let db2 : DB :=
    { db1 with
      session := updateOne (fun s => s.user_id == dev.username)
        (fun _ => sess) sess db1.nextOid db1.session,
      nextOid := db1.nextOid + 1 }
  { db2 with
    portfolio := updateOne (fun p => p.username == dev.username)
      (fun p => p) { username := dev.username } db2.nextOid db2.portfolio,
    nextOid := db2.nextOid + 1 }

/-- The body returned by the callback. -/
structure CallbackResp where
  redirect_to : String
  deriving Repr, DecidableEq

/-- `github_auth_callback`: 400 when the exchange status is not 200 or the
`access_token` is falsy (absent or empty); otherwise perform the three writes
and return the frontend redirect carrying the fresh token. -/
def githubAuthCallback (frontendUrl : String) (inp : CallbackInput) (db : DB) :
    Except HErr CallbackResp × DB :=
  if inp.tokenResp.status ≠ 200 then
    (.error ⟨400, "Failed to exchange code"⟩, db)
  else if inp.tokenResp.access_token.getD "" = "" then
    (.error ⟨400, "No access token from GitHub"⟩, db)
  else
    (.ok ⟨frontendUrl ++ "/auth?token=" ++ inp.freshToken⟩, callbackDB inp db)

/-- `get_current_user`: read the `x-session-token` header (falsy when absent
or empty), look the session up by token, reject it when
`sess.get("expires_at", 0) < time.time()`, then resolve the session's
`user_id` to a developer document (projected without `_id`). -/
def getCurrentUser (tok : Option String) (now : ℚ) (db : DB) :
    Except HErr Developer :=
  match tok with
  | none => .error ⟨401, "Missing session token"⟩
  | some t =>
    if t = "" then .error ⟨401, "Missing session token"⟩
    else
      match db.session.find? (fun s => s.doc.token == t) with
      | none => .error ⟨401, "Invalid or expired session token"⟩
      | some s =>
        if s.doc.expires_at.getD 0 < now then
          .error ⟨401, "Invalid or expired session token"⟩
        else
          match db.developer.find? (fun d => d.doc.username == s.doc.user_id) with
          | none => .error ⟨401, "User not found"⟩
          | some d => .ok d.doc

/-- Whether a handler outcome is a 401 rejection. -/
def is401 : Except HErr Developer → Bool
  | .error e => e.status == 401
  | .ok _ => false

/-- `GET /portfolio/{username}`: an unauthenticated read; 404 when no
portfolio document matches, otherwise the document without its `_id`.  The
store is returned unchanged alongside the response. -/
def getPortfolio (username : String) (db : DB) : Except HErr Portfolio × DB :=
  match db.portfolio.find? (fun p => p.doc.username == username) with
  | none => (.error ⟨404, "Portfolio not found"⟩, db)
  | some p => (.ok p.doc, db)

/-- The `PortfolioUpdate` request body: each field absent or null is `none`
(`model_dump()` then drops `None` values). -/
structure PortfolioUpdate where
  headline : Option String := none
  subheadline : Option String := none
  sections : Option (List Dict) := none
  theme : Option Dict := none
  deriving Repr, DecidableEq

/-- Whether `{k: v for k, v in payload.model_dump().items() if v is not None}`
is empty. -/
def PortfolioUpdate.isEmpty (p : PortfolioUpdate) : Bool :=
  p.headline.isNone && p.subheadline.isNone && p.sections.isNone && p.theme.isNone

/-- `$set` of the non-null payload fields on a portfolio document: each
provided field is overwritten, each omitted field is kept. -/
def applyPatch (p : PortfolioUpdate) (d : Portfolio) : Portfolio :=
  { d with
    headline := match p.headline with | some v => some v | none => d.headline
    subheadline := match p.subheadline with | some v => some v | none => d.subheadline
    sections := match p.sections with | some v => v | none => d.sections
    theme := match p.theme with | some v => v | none => d.theme }

/-- The document Mongo builds when the `update_one` of `update_portfolio`
upserts with no existing match: the filter's `username` plus the `$set`
fields (absent fields modelled as `none` / empty). -/
def bareDoc (u : String) : Portfolio :=
  { username := u, headline := none, subheadline := none, sections := [], theme := [] }

/-- `POST /portfolio`: authenticate via `get_current_user`, drop null payload
fields, answer `updated: false` without touching the store when nothing
remains, otherwise `$set` the remaining fields on the caller's portfolio
(upserting) and answer `updated: true`. -/
def updatePortfolio (payload : PortfolioUpdate) (tok : Option String) (now : ℚ)
    (db : DB) : Except HErr Bool × DB :=
  match getCurrentUser tok now db with
  | .error e => (.error e, db)
  | .ok user =>
    if payload.isEmpty then (.ok false, db)
    else
      (.ok true,
        { db with
          portfolio := updateOne (fun p => p.username == user.username)
            (applyPatch payload) (applyPatch payload (bareDoc user.username))
            db.nextOid db.portfolio,
          nextOid := db.nextOid + 1 })

/-- A successful code-for-token exchange: status 200 and a truthy
`access_token`. -/
def CallbackOk (inp : CallbackInput) : Prop :=
  inp.tokenResp.status = 200 ∧ inp.tokenResp.access_token.getD "" ≠ ""

instance (inp : CallbackInput) : Decidable (CallbackOk inp) := by
  unfold CallbackOk; infer_instance

instance {ε α : Type} [DecidableEq ε] [DecidableEq α] : DecidableEq (Except ε α) :=
  fun a b =>
  match a, b with
  | .error x, .error y =>
    if h : x = y then .isTrue (by rw [h]) else .isFalse (fun hc => h (Except.error.inj hc))
  | .ok x, .ok y =>
    if h : x = y then .isTrue (by rw [h]) else .isFalse (fun hc => h (Except.ok.inj hc))
  | .error _, .ok _ => .isFalse Except.noConfusion
  | .ok _, .error _ => .isFalse Except.noConfusion

/-- A developer document as stored for a profile with only a login. -/
def devAlice : Developer := { username := "alice" }

/-- A store exercising the empty-header-token edge: one unexpired session
whose token is the empty string, and its developer. -/
def exDB : DB :=
  { developer := [⟨2, devAlice⟩],
    session := [⟨1, { token := "", user_id := "alice", expires_at := some 100 }⟩],
    portfolio := [],
    nextOid := 3 }

/-- A store with a live session `"tok"` expiring at time 50, its developer
and portfolio documents. -/
def exDB2 : DB :=
  { developer := [⟨1, devAlice⟩],
    session := [⟨2, { token := "tok", user_id := "alice", expires_at := some 50 }⟩],
    portfolio := [⟨3, { username := "alice" }⟩],
    nextOid := 4 }

/-- The empty store. -/
def emptyDB : DB := { developer := [], session := [], portfolio := [], nextOid := 0 }

/-- A successful callback run for user "alice". -/
def cbInp1 : CallbackInput :=
  { tokenResp := ⟨200, some "gh-access"⟩, ghUser := { login := "alice" },
    emails := none, freshToken := "tok1", now := 0 }

/-- A second successful callback run for the same user with a new token. -/
def cbInp2 : CallbackInput :=
  { tokenResp := ⟨200, some "gh-access"⟩, ghUser := { login := "alice" },
    emails := none, freshToken := "tok2", now := 5 }

/-- A callback run whose code-for-token exchange failed. -/
def cbBad : CallbackInput :=
  { tokenResp := ⟨500, none⟩, ghUser := { login := "alice" },
    emails := none, freshToken := "t", now := 0 }

/-- A one-field merge patch. -/
def patchHeadline : PortfolioUpdate := { headline := some "Hi" }

/-- `replaceFirst` reports `none` exactly when no document matches the
filter. -/
theorem replaceFirst_eq_none_iff {α : Type} (pred : α → Bool) (f : α → α)
    (l : List (Stored α)) :
    replaceFirst pred f l = none ↔ l.find? (fun s => pred s.doc) = none := by
  induction l with
  | nil => simp [replaceFirst]
  | cons a l ih =>
    rw [List.find?_cons]
    by_cases ha : pred a.doc
    · rw [replaceFirst, if_pos ha]
      simp [ha]
    · rw [replaceFirst, if_neg ha]
      simp only [Bool.eq_false_iff.mpr ha]
      rw [← ih]
      cases hr : replaceFirst pred f l <;> simp [hr]

/-- `update_one` with no matching document appends the insert document with
the supplied fresh id. -/
theorem updateOne_insert {α : Type} (pred : α → Bool) (f : α → α) (onInsert : α)
    (oid : Nat) (l : List (Stored α))
    (h : l.find? (fun s => pred s.doc) = none) :
    updateOne pred f onInsert oid l = l ++ [⟨oid, onInsert⟩] := by
  unfold updateOne
  rw [(replaceFirst_eq_none_iff pred f l).mpr h]

/-- When `find?` locates a first match `x`, the collection splits as
`l₁ ++ x :: l₂` with no match in `l₁`, and `update_one` rewrites exactly that
document in place, keeping its id and the rest of the collection. -/
theorem updateOne_found {α : Type} (pred : α → Bool) (f : α → α) (onInsert : α)
    (oid : Nat) (l : List (Stored α)) (x : Stored α)
    (h : l.find? (fun s => pred s.doc) = some x) :
    ∃ l₁ l₂, l = l₁ ++ x :: l₂ ∧ (∀ y ∈ l₁, pred y.doc = false) ∧
      pred x.doc = true ∧
      updateOne pred f onInsert oid l = l₁ ++ { oid := x.oid, doc := f x.doc } :: l₂ := by
  induction l with
  | nil => simp at h
  | cons a l ih =>
    by_cases ha : pred a.doc
    · rw [List.find?_cons] at h
      simp only [ha, Option.some_inj] at h
      subst h
      refine ⟨[], l, rfl, by simp, ha, ?_⟩
      unfold updateOne
      rw [replaceFirst, if_pos ha]
      rfl
    · rw [List.find?_cons] at h
      simp only [Bool.eq_false_iff.mpr ha] at h
      obtain ⟨l₁, l₂, hl, hl₁, hx, hu⟩ := ih h
      refine ⟨a :: l₁, l₂, by rw [hl]; rfl, ?_, hx, ?_⟩
      · intro y hy
        rcases List.mem_cons.mp hy with rfl | hy
        · exact Bool.eq_false_iff.mpr ha
        · exact hl₁ y hy
      · unfold updateOne at hu ⊢
        rw [replaceFirst, if_neg ha]
        cases hr : replaceFirst pred f l with
        | none =>
          have hn := (replaceFirst_eq_none_iff pred f l).mp hr
          rw [h] at hn
          exact Option.noConfusion hn
        | some l' =>
          rw [hr] at hu
          simp only at hu
          rw [hu]
          rfl

/-- A `$setOnInsert`-style update (`f` the identity) leaves a collection with
a matching document unchanged. -/
theorem updateOne_id_of_found {α : Type} (pred : α → Bool) (onInsert : α)
    (oid : Nat) (l : List (Stored α)) (x : Stored α)
    (h : l.find? (fun s => pred s.doc) = some x) :
    updateOne pred (fun d => d) onInsert oid l = l := by
  obtain ⟨l₁, l₂, hl, -, -, hu⟩ := updateOne_found pred (fun d => d) onInsert oid l x h
  rw [hu, hl]

/-- After a full-replacement upsert into a collection with at most one match,
every member is either the new document or an untouched non-matching member
of the original collection. -/
theorem mem_updateOne_const {α : Type} (pred : α → Bool) (nd : α) (oid : Nat)
    (l : List (Stored α))
    (hone : (l.countP fun s => pred s.doc) ≤ 1)
    (y : Stored α) (hy : y ∈ updateOne pred (fun _ => nd) nd oid l) :
    y.doc = nd ∨ (y ∈ l ∧ pred y.doc = false) := by
  cases hf : l.find? (fun s => pred s.doc) with
  | none =>
    rw [updateOne_insert pred _ nd oid l hf] at hy
    rcases List.mem_append.mp hy with hy | hy
    · refine Or.inr ⟨hy, ?_⟩
      have := List.find?_eq_none.mp hf y hy
      exact Bool.eq_false_iff.mpr this
    · left
      rcases List.mem_singleton.mp hy with rfl
      rfl
  | some x =>
    obtain ⟨l₁, l₂, hl, hl₁, hx, hu⟩ := updateOne_found pred (fun _ => nd) nd oid l x hf
    have hl₂ : ∀ y ∈ l₂, pred y.doc = false := by
      intro z hz
      subst hl
      by_contra hzp
      have hzp' : pred z.doc = true := Bool.eq_false_iff.not_left.mp hzp
      have hcount : (l₁ ++ x :: l₂).countP (fun s => pred s.doc) =
          l₁.countP (fun s => pred s.doc) + ((l₂.countP fun s => pred s.doc) + 1) := by
        rw [List.countP_append, List.countP_cons]
        simp [hx]
      have hz1 : 1 ≤ l₂.countP fun s => pred s.doc :=
        List.countP_pos_iff.mpr ⟨z, hz, hzp'⟩
      omega
    rw [hu] at hy
    rcases List.mem_append.mp hy with hy | hy
    · exact Or.inr ⟨by rw [hl]; exact List.mem_append_left _ hy, hl₁ y hy⟩
    · rcases List.mem_cons.mp hy with rfl | hy
      · left; rfl
      · refine Or.inr ⟨?_, hl₂ y hy⟩
        rw [hl]
        exact List.mem_append_right _ (List.mem_cons_of_mem _ hy)

/-- A full-replacement upsert always leaves the new document in the
collection. -/
theorem updateOne_mem_new {α : Type} (pred : α → Bool) (nd : α) (oid : Nat)
    (l : List (Stored α)) :
    ∃ y ∈ updateOne pred (fun _ => nd) nd oid l, y.doc = nd := by
  cases hf : l.find? (fun s => pred s.doc) with
  | none =>
    rw [updateOne_insert pred _ nd oid l hf]
    exact ⟨⟨oid, nd⟩, List.mem_append_right _ (List.mem_singleton.mpr rfl), rfl⟩
  | some x =>
    obtain ⟨l₁, l₂, -, -, -, hu⟩ := updateOne_found pred (fun _ => nd) nd oid l x hf
    rw [hu]
    exact ⟨⟨x.oid, nd⟩, List.mem_append_right _ (List.mem_cons_self _ _), rfl⟩

/-- A full-replacement upsert whose new document matches the filter leaves
exactly one matching document in a collection that had at most one. -/
theorem countP_updateOne_const {α : Type} (pred : α → Bool) (nd : α) (oid : Nat)
    (l : List (Stored α)) (hnd : pred nd = true)
    (hone : (l.countP fun s => pred s.doc) ≤ 1) :
    ((updateOne pred (fun _ => nd) nd oid l).countP fun s => pred s.doc) = 1 := by
  cases hf : l.find? (fun s => pred s.doc) with
  | none =>
    rw [updateOne_insert pred _ nd oid l hf, List.countP_append]
    have h0 : (l.countP fun s => pred s.doc) = 0 := by
      rw [List.countP_eq_zero]
      exact fun a ha => List.find?_eq_none.mp hf a ha
    simp [h0, hnd, List.countP_cons]
  | some x =>
    obtain ⟨l₁, l₂, hl, hl₁, hx, hu⟩ := updateOne_found pred (fun _ => nd) nd oid l x hf
    have h1 : (l₁.countP fun s => pred s.doc) = 0 :=
      List.countP_eq_zero.mpr fun a ha => by
        rw [hl₁ a ha]; exact Bool.false_ne_true
    have hcount : (l.countP fun s => pred s.doc) =
        (l₂.countP fun s => pred s.doc) + 1 := by
      rw [hl, List.countP_append, List.countP_cons, h1]
      simp [hx]
    have h2 : (l₂.countP fun s => pred s.doc) = 0 := by omega
    rw [hu, List.countP_append, List.countP_cons, h1, h2]
    simp [hnd]

/-- The developer write of a successful callback, projected. -/
theorem callbackDB_developer (inp : CallbackInput) (db : DB) :
    (callbackDB inp db).developer =
      updateOne (fun d => d.username == inp.ghUser.login)
        (fun _ => devOfGh inp.ghUser (primaryEmail inp.emails))
        (devOfGh inp.ghUser (primaryEmail inp.emails)) db.nextOid db.developer := rfl

/-- The session write of a successful callback, projected. -/
theorem callbackDB_session (inp : CallbackInput) (db : DB) :
    (callbackDB inp db).session =
      updateOne (fun s => s.user_id == inp.ghUser.login)
        (fun _ => { token := inp.freshToken, user_id := inp.ghUser.login,
                    expires_at := some (inp.now + sevenDays) })
        { token := inp.freshToken, user_id := inp.ghUser.login,
          expires_at := some (inp.now + sevenDays) }
        (db.nextOid + 1) db.session := rfl

/-- The portfolio write of a successful callback, projected. -/
theorem callbackDB_portfolio (inp : CallbackInput) (db : DB) :
    (callbackDB inp db).portfolio =
      updateOne (fun p => p.username == inp.ghUser.login)
        (fun p => p) { username := inp.ghUser.login }
        (db.nextOid + 2) db.portfolio := rfl

/-- A successful exchange drives the callback into its write-and-redirect
branch. -/
theorem githubAuthCallback_ok (f : String) (inp : CallbackInput) (db : DB)
    (h : CallbackOk inp) :
    githubAuthCallback f inp db =
      (.ok ⟨f ++ "/auth?token=" ++ inp.freshToken⟩, callbackDB inp db) := by
  obtain ⟨h1, h2⟩ := h
  unfold githubAuthCallback
  rw [if_neg (by simp [h1]), if_neg h2]

/-- C7: the OAuth callback fails with HTTP 400 whenever the code-for-token
exchange does not return status 200 or returns a body without an
`access_token`, and in either failure case the developer, session and
portfolio collections are all unchanged (the store is returned as it was). -/
theorem callback_exchange_failure_400 (f : String) (inp : CallbackInput) (db : DB)
    (h : inp.tokenResp.status ≠ 200 ∨ inp.tokenResp.access_token = none) :
    ∃ d, githubAuthCallback f inp db = (.error ⟨400, d⟩, db) := by
  unfold githubAuthCallback
  rcases h with h | h
  · exact ⟨"Failed to exchange code", by rw [if_pos h]⟩
  · by_cases h1 : inp.tokenResp.status ≠ 200
    · exact ⟨"Failed to exchange code", by rw [if_pos h1]⟩
    · refine ⟨"No access token from GitHub", ?_⟩
      rw [if_neg h1, if_pos (by rw [h]; rfl)]

/-- C7 witness: a concrete failed exchange leaves the empty store empty. -/
theorem callback_exchange_failure_400_witness :
    ∃ d, githubAuthCallback "F" cbBad emptyDB = (.error ⟨400, d⟩, emptyDB) :=
  callback_exchange_failure_400 "F" cbBad emptyDB (Or.inl (by decide))

/-- C8: `GET /portfolio/{username}` needs no session token: an existing
portfolio document is returned without its `_id` and a missing one yields
HTTP 404; in both cases the store is returned unchanged. -/
theorem getPortfolio_cases (u : String) (db : DB) :
    (∀ x, db.portfolio.find? (fun p => p.doc.username == u) = some x →
      getPortfolio u db = (.ok x.doc, db)) ∧
    (db.portfolio.find? (fun p => p.doc.username == u) = none →
      getPortfolio u db = (.error ⟨404, "Portfolio not found"⟩, db)) := by
  constructor
  · intro x hx
    unfold getPortfolio
    rw [hx]
  · intro hx
    unfold getPortfolio
    rw [hx]

/-- C8 witness: the stored portfolio of "alice" is served body-only, store
unchanged. -/
theorem getPortfolio_cases_witness :
    getPortfolio "alice" exDB2 = (.ok { username := "alice" }, exDB2) :=
  (getPortfolio_cases "alice" exDB2).1 ⟨3, { username := "alice" }⟩ (by decide)

/-- C9: a `POST /portfolio` whose payload has every field absent or null
performs no write (the store is returned unchanged whatever the
authentication outcome) and, for an authenticated user, answers
`updated: false`. -/
theorem updatePortfolio_empty_patch (p : PortfolioUpdate) (tok : Option String)
    (now : ℚ) (db : DB)
    (h1 : p.headline = none) (h2 : p.subheadline = none)
    (h3 : p.sections = none) (h4 : p.theme = none) :
    (updatePortfolio p tok now db).2 = db ∧
    (∀ user, getCurrentUser tok now db = .ok user →
      updatePortfolio p tok now db = (.ok false, db)) := by
  have he : p.isEmpty = true := by
    unfold PortfolioUpdate.isEmpty
    rw [h1, h2, h3, h4]
    rfl
  constructor
  · cases hc : getCurrentUser tok now db with
    | error e => simp [updatePortfolio, hc]
    | ok user => simp [updatePortfolio, hc, he]
  · intro user hu
    simp [updatePortfolio, hu, he]

/-- C9 witness: the all-defaults payload on a live session leaves the store
untouched and reports `updated: false`. -/
theorem updatePortfolio_empty_patch_witness :
    updatePortfolio {} (some "tok") 50 exDB2 = (.ok false, exDB2) :=
  (updatePortfolio_empty_patch {} (some "tok") 50 exDB2 rfl rfl rfl rfl).2
    devAlice (by decide)

/-- C10: session expiry is checked strictly: with the session found and its
developer present, validation succeeds exactly when the stored expiry
(0 when the field is absent) is not strictly below the current time; in
particular a session whose `expires_at` equals the current time is accepted. -/
theorem session_expiry_strict (t : String) (now : ℚ) (db : DB)
    (s : Stored SessionDoc) (d : Stored Developer)
    (ht : t ≠ "")
    (hs : db.session.find? (fun q => q.doc.token == t) = some s)
    (hd : db.developer.find? (fun q => q.doc.username == s.doc.user_id) = some d) :
    (getCurrentUser (some t) now db = .ok d.doc ↔ ¬ s.doc.expires_at.getD 0 < now) ∧
    (s.doc.expires_at = some now → getCurrentUser (some t) now db = .ok d.doc) := by
  have hred : ∀ hcmp : ¬ s.doc.expires_at.getD 0 < now,
      getCurrentUser (some t) now db = .ok d.doc := by
    intro hcmp
    simp [getCurrentUser, ht, hs, hd, hcmp]
  refine ⟨⟨?_, hred⟩, fun hex => hred (by rw [hex]; simp)⟩
  intro hok hcmp
  simp [getCurrentUser, ht, hs, hcmp] at hok

/-- C10 witness: the session expiring exactly at the current time 50 is still
accepted. -/
theorem session_expiry_strict_witness :
    getCurrentUser (some "tok") 50 exDB2 = .ok devAlice :=
  (session_expiry_strict "tok" 50 exDB2
      ⟨2, { token := "tok", user_id := "alice", expires_at := some 50 }⟩
      ⟨1, devAlice⟩ (by decide) (by decide) (by decide)).2 (by decide)

/-- C3: every successful OAuth callback stores a session holding exactly the
freshly generated token, referencing the logged-in username, with absolute
expiry the issuance time plus 7 days (604800 seconds), and returns a
`redirect_to` URL that is the frontend `/auth` path carrying exactly that
token as the `token` query parameter. -/
theorem callback_session_token_expiry_redirect (f : String) (inp : CallbackInput)
    (db : DB) (h : CallbackOk inp) :
    ∃ db2, githubAuthCallback f inp db =
        (.ok { redirect_to := f ++ "/auth?token=" ++ inp.freshToken }, db2) ∧
      ∃ y ∈ db2.session,
        y.doc.token = inp.freshToken ∧
        y.doc.user_id = inp.ghUser.login ∧
        y.doc.expires_at = some (inp.now + 604800) := by
  refine ⟨callbackDB inp db, githubAuthCallback_ok f inp db h, ?_⟩
  rw [callbackDB_session]
  obtain ⟨y, hy, hdoc⟩ :=
    updateOne_mem_new (fun s : SessionDoc => s.user_id == inp.ghUser.login)
      { token := inp.freshToken, user_id := inp.ghUser.login,
        expires_at := some (inp.now + sevenDays) }
      (db.nextOid + 1) db.session
  refine ⟨y, hy, ?_⟩
  rw [hdoc]
  refine ⟨rfl, rfl, ?_⟩
  show some (inp.now + sevenDays) = some (inp.now + 604800)
  norm_num [sevenDays]

/-- C3 witness: the first login run on the empty store. -/
theorem callback_session_token_expiry_redirect_witness :
    ∃ db2, githubAuthCallback "http://localhost:3000" cbInp1 emptyDB =
        (.ok { redirect_to := "http://localhost:3000" ++ "/auth?token=" ++ cbInp1.freshToken },
         db2) ∧
      ∃ y ∈ db2.session,
        y.doc.token = cbInp1.freshToken ∧
        y.doc.user_id = cbInp1.ghUser.login ∧
        y.doc.expires_at = some (cbInp1.now + 604800) :=
  callback_session_token_expiry_redirect "http://localhost:3000" cbInp1 emptyDB (by decide)

/-- C4: a successful login upserts the developer document keyed by the
fetched GitHub login: afterwards exactly one developer document carries that
username and its fields equal the profile data fetched during that login. -/
theorem callback_developer_upsert (f : String) (inp : CallbackInput)
    (db db2 : DB) (r : Except HErr CallbackResp)
    (h : CallbackOk inp)
    (hone : (db.developer.countP fun d => d.doc.username == inp.ghUser.login) ≤ 1)
    (hrun : githubAuthCallback f inp db = (r, db2)) :
    ((db2.developer.countP fun d => d.doc.username == inp.ghUser.login) = 1) ∧
    (∀ y ∈ db2.developer, y.doc.username = inp.ghUser.login →
      y.doc.name = inp.ghUser.name ∧
      y.doc.email = primaryEmail inp.emails ∧
      y.doc.avatar_url = inp.ghUser.avatar_url ∧
      y.doc.bio = inp.ghUser.bio ∧
      y.doc.company = inp.ghUser.company ∧
      y.doc.location = inp.ghUser.location ∧
      y.doc.blog = inp.ghUser.blog ∧
      y.doc.twitter_username = inp.ghUser.twitter_username ∧
      y.doc.html_url = inp.ghUser.html_url ∧
      y.doc.public_repos = inp.ghUser.public_repos) := by
  rw [githubAuthCallback_ok f inp db h] at hrun
  injection hrun with hr hdb
  subst hdb
  constructor
  · rw [callbackDB_developer]
    refine countP_updateOne_const (fun d : Developer => d.username == inp.ghUser.login)
      _ _ _ ?_ hone
    simp [devOfGh]
  · intro y hy hyu
    rw [callbackDB_developer] at hy
    rcases mem_updateOne_const (fun d : Developer => d.username == inp.ghUser.login) _ _ _
        hone y hy with hdoc | ⟨hmem, hpred⟩
    · rw [hdoc]
      exact ⟨rfl, rfl, rfl, rfl, rfl, rfl, rfl, rfl, rfl, rfl⟩
    · exfalso
      rw [hyu] at hpred
      simp at hpred

/-- C4 witness: after the first login on the empty store, exactly one
developer document for "alice" exists. -/
theorem callback_developer_upsert_witness :
    (((githubAuthCallback "F" cbInp1 emptyDB).2).developer.countP
      fun d => d.doc.username == cbInp1.ghUser.login) = 1 :=
  (callback_developer_upsert "F" cbInp1 emptyDB
    (githubAuthCallback "F" cbInp1 emptyDB).2 (githubAuthCallback "F" cbInp1 emptyDB).1
    (by decide) (by decide) rfl).1

/-- C5: the login flow creates the portfolio once with the schema defaults
when the user has none, and leaves an existing portfolio document (and the
whole portfolio collection) unchanged. -/
theorem callback_portfolio_created_once (f : String) (inp : CallbackInput)
    (db db2 : DB) (r : Except HErr CallbackResp)
    (h : CallbackOk inp)
    (hrun : githubAuthCallback f inp db = (r, db2)) :
    (db.portfolio.find? (fun p => p.doc.username == inp.ghUser.login) = none →
      ∃ o, db2.portfolio = db.portfolio ++
        [⟨o, { username := inp.ghUser.login,
               headline := some "Building with code.",
               subheadline := some "Developer portfolio powered by GitHub.",
               sections := [],
               theme := [("accent", "#3b82f6")] }⟩]) ∧
    (∀ x, db.portfolio.find? (fun p => p.doc.username == inp.ghUser.login) = some x →
      db2.portfolio = db.portfolio) := by
  rw [githubAuthCallback_ok f inp db h] at hrun
  injection hrun with hr hdb
  subst hdb
  constructor
  · intro hnone
    refine ⟨db.nextOid + 2, ?_⟩
    rw [callbackDB_portfolio]
    exact updateOne_insert _ _ _ _ _ hnone
  · intro x hx
    rw [callbackDB_portfolio]
    exact updateOne_id_of_found _ _ _ _ x hx

/-- C5 witness: the first login on the empty store inserts the default
portfolio for "alice". -/
theorem callback_portfolio_created_once_witness :
    ∃ o, ((githubAuthCallback "F" cbInp1 emptyDB).2).portfolio =
      emptyDB.portfolio ++
        [⟨o, { username := cbInp1.ghUser.login,
               headline := some "Building with code.",
               subheadline := some "Developer portfolio powered by GitHub.",
               sections := [],
               theme := [("accent", "#3b82f6")] }⟩] :=
  (callback_portfolio_created_once "F" cbInp1 emptyDB
    (githubAuthCallback "F" cbInp1 emptyDB).2 (githubAuthCallback "F" cbInp1 emptyDB).1
    (by decide) rfl).1 (by decide)

/-- C6: `POST /portfolio` applies a merge-patch: for an authenticated user
with an existing portfolio document, exactly the non-null payload fields are
overwritten on that document, every omitted field and the username key stay
as they were, its `_id`, the rest of the portfolio collection and the other
collections are untouched, and the endpoint reports `updated: true` since at
least one field was provided. -/
theorem updatePortfolio_merge_patch (p : PortfolioUpdate) (tok : Option String)
    (now : ℚ) (db : DB) (user : Developer) (x : Stored Portfolio)
    (hauth : getCurrentUser tok now db = .ok user)
    (hsome : p.isEmpty = false)
    (hfind : db.portfolio.find? (fun q => q.doc.username == user.username) = some x) :
    ∃ l₁ l₂ y,
      updatePortfolio p tok now db =
        (.ok true, { db with portfolio := l₁ ++ y :: l₂, nextOid := db.nextOid + 1 }) ∧
      db.portfolio = l₁ ++ x :: l₂ ∧
      y.oid = x.oid ∧
      y.doc.username = x.doc.username ∧
      y.doc.headline = (match p.headline with | some v => some v | none => x.doc.headline) ∧
      y.doc.subheadline =
        (match p.subheadline with | some v => some v | none => x.doc.subheadline) ∧
      y.doc.sections = (match p.sections with | some v => v | none => x.doc.sections) ∧
      y.doc.theme = (match p.theme with | some v => v | none => x.doc.theme) := by
  obtain ⟨l₁, l₂, hl, hl₁, hx, hu⟩ :=
    updateOne_found (fun q : Portfolio => q.username == user.username) (applyPatch p)
      (applyPatch p (bareDoc user.username)) db.nextOid db.portfolio x hfind
  refine ⟨l₁, l₂, ⟨x.oid, applyPatch p x.doc⟩, ?_, hl, rfl, rfl, rfl, rfl, rfl, rfl⟩
  unfold updatePortfolio
  rw [hauth]
  simp only [hsome, Bool.false_eq_true, if_false]
  rw [hu]

/-- C6 witness: patching only the headline on the stored portfolio. -/
theorem updatePortfolio_merge_patch_witness :
    ∃ l₁ l₂ y,
      updatePortfolio patchHeadline (some "tok") 50 exDB2 =
        (.ok true,
          { exDB2 with portfolio := l₁ ++ y :: l₂, nextOid := exDB2.nextOid + 1 }) ∧
      exDB2.portfolio = l₁ ++ (⟨3, { username := "alice" }⟩ : Stored Portfolio) :: l₂ ∧
      y.oid = (⟨3, { username := "alice" }⟩ : Stored Portfolio).oid ∧
      y.doc.username = "alice" ∧
      y.doc.headline =
        (match patchHeadline.headline with
         | some v => some v
         | none => (Portfolio.mk "alice" (some "Building with code.")
             (some "Developer portfolio powered by GitHub.") [] [("accent", "#3b82f6")]).headline) ∧
      y.doc.subheadline =
        (match patchHeadline.subheadline with
         | some v => some v
         | none => (Portfolio.mk "alice" (some "Building with code.")
             (some "Developer portfolio powered by GitHub.") [] [("accent", "#3b82f6")]).subheadline) ∧
      y.doc.sections =
        (match patchHeadline.sections with
         | some v => v
         | none => (Portfolio.mk "alice" (some "Building with code.")
             (some "Developer portfolio powered by GitHub.") [] [("accent", "#3b82f6")]).sections) ∧
      y.doc.theme =
        (match patchHeadline.theme with
         | some v => v
         | none => (Portfolio.mk "alice" (some "Building with code.")
             (some "Developer portfolio powered by GitHub.") [] [("accent", "#3b82f6")]).theme) :=
  updatePortfolio_merge_patch patchHeadline (some "tok") 50 exDB2 devAlice
    ⟨3, { username := "alice" }⟩ (by decide) (by decide) (by decide)

/-- C1 counterexample: the claim's 401 conditions are not necessary.  With
the `x-session-token` header present but empty, an unexpired session whose
token is the empty string, and its developer, all in the store, validation
still rejects with 401 (`if not token` treats the empty header as missing),
although the header is not missing, a session holds the token, its
`expires_at` is not earlier than the current time, and the developer
exists. -/
theorem auth_401_iff_cex :
    is401 (getCurrentUser (some "") 50 exDB) = true ∧
    (some "" ≠ (none : Option String)) ∧
    exDB.session.find? (fun q => q.doc.token == "") =
      some ⟨1, { token := "", user_id := "alice", expires_at := some 100 }⟩ ∧
    ¬ ((100 : ℚ) < 50) ∧
    exDB.developer.find? (fun q => q.doc.username == "alice") = some ⟨2, devAlice⟩ := by
  refine ⟨rfl, by decide, by decide, by norm_num, by decide⟩

/-- C1 (amended: a present-but-empty header token is rejected like a missing
one): session validation rejects with 401 exactly when the header token is
missing or empty, no session document holds it, the matching session's stored
expiry is earlier than the current time, or no developer document exists for
the session's `user_id`; otherwise it resolves the token to the developer
document referenced by the session and the request proceeds with that user.
Sessions are assumed schema-conformant (each stores an `expires_at`). -/
theorem auth_401_iff (tok : Option String) (now : ℚ) (db : DB)
    (hwf : ∀ s ∈ db.session, s.doc.expires_at ≠ none) :
    (is401 (getCurrentUser tok now db) = true ↔
      (tok.getD "" = "" ∨
       db.session.find? (fun q => q.doc.token == tok.getD "") = none ∨
       (∃ s, db.session.find? (fun q => q.doc.token == tok.getD "") = some s ∧
         ∃ e, s.doc.expires_at = some e ∧ e < now) ∨
       (∃ s, db.session.find? (fun q => q.doc.token == tok.getD "") = some s ∧
         db.developer.find? (fun q => q.doc.username == s.doc.user_id) = none))) ∧
    (∀ s d, db.session.find? (fun q => q.doc.token == tok.getD "") = some s →
       db.developer.find? (fun q => q.doc.username == s.doc.user_id) = some d →
       tok.getD "" ≠ "" → ¬ (∃ e, s.doc.expires_at = some e ∧ e < now) →
       getCurrentUser tok now db = .ok d.doc) := by
  constructor
  · cases tok with
    | none => exact ⟨fun _ => Or.inl rfl, fun _ => rfl⟩
    | some t =>
      by_cases ht : t = ""
      · subst ht
        exact ⟨fun _ => Or.inl rfl, fun _ => rfl⟩
      · simp only [Option.getD_some]
        cases hf : db.session.find? (fun q => q.doc.token == t) with
        | none =>
          have hval : getCurrentUser (some t) now db =
              .error ⟨401, "Invalid or expired session token"⟩ := by
            simp [getCurrentUser, ht, hf]
          rw [hval]
          exact ⟨fun _ => Or.inr (Or.inl rfl), fun _ => rfl⟩
        | some s =>
          have hsmem := List.mem_of_find?_eq_some hf
          obtain ⟨e, he⟩ : ∃ e, s.doc.expires_at = some e := by
            cases hse : s.doc.expires_at with
            | none => exact absurd hse (hwf s hsmem)
            | some e => exact ⟨e, rfl⟩
          by_cases hlt : e < now
          · have hcmp : s.doc.expires_at.getD 0 < now := by rw [he]; simpa using hlt
            have hval : getCurrentUser (some t) now db =
                .error ⟨401, "Invalid or expired session token"⟩ := by
              simp [getCurrentUser, ht, hf, hcmp]
            rw [hval]
            exact ⟨fun _ => Or.inr (Or.inr (Or.inl ⟨s, rfl, e, he, hlt⟩)), fun _ => rfl⟩
          · have hcmp : ¬ s.doc.expires_at.getD 0 < now := by rw [he]; simpa using hlt
            cases hd : db.developer.find? (fun q => q.doc.username == s.doc.user_id) with
            | none =>
              have hval : getCurrentUser (some t) now db =
                  .error ⟨401, "User not found"⟩ := by
                simp [getCurrentUser, ht, hf, hcmp, hd]
              rw [hval]
              exact ⟨fun _ => Or.inr (Or.inr (Or.inr ⟨s, rfl, hd⟩)), fun _ => rfl⟩
            | some d =>
              have hval : getCurrentUser (some t) now db = .ok d.doc := by
                simp [getCurrentUser, ht, hf, hcmp, hd]
              rw [hval]
              constructor
              · intro habs
                exact absurd habs (by simp [is401])
              · intro hr
                exfalso
                rcases hr with hr | hr | ⟨s', hs', e', he', hlt'⟩ | ⟨s', hs', hd'⟩
                · exact ht hr
                · exact Option.noConfusion hr
                · rw [Option.some_inj] at hs'
                  subst hs'
                  rw [he, Option.some_inj] at he'
                  subst he'
                  exact hlt hlt'
                · rw [Option.some_inj] at hs'
                  subst hs'
                  rw [hd] at hd'
                  exact Option.noConfusion hd'
  · intro s d hs hd ht hne
    cases tok with
    | none => exact absurd rfl ht
    | some t =>
      rw [Option.getD_some] at hs ht
      have hsmem := List.mem_of_find?_eq_some hs
      obtain ⟨e, he⟩ : ∃ e, s.doc.expires_at = some e := by
        cases hse : s.doc.expires_at with
        | none => exact absurd hse (hwf s hsmem)
        | some e => exact ⟨e, rfl⟩
      have hcmp : ¬ s.doc.expires_at.getD 0 < now := by
        rw [he]
        exact fun hc => hne ⟨e, he, by simpa using hc⟩
      simp [getCurrentUser, ht, hs, hcmp, hd]

/-- C1 witness: a valid token on the live store resolves to the stored
developer. -/
theorem auth_401_iff_witness :
    getCurrentUser (some "tok") 50 exDB2 = .ok devAlice :=
  (auth_401_iff (some "tok") 50 exDB2 (by decide)).2
    ⟨2, { token := "tok", user_id := "alice", expires_at := some 50 }⟩
    ⟨1, devAlice⟩ (by decide) (by decide) (by decide) (by simp)

/-- C2: one active session per username: starting from a store holding at
most one session for the user and none holding the first fresh token, two
successful logins by the same user leave exactly one session document for
that username, the first login's token no longer matches any session, and
validating the old token rejects with 401.  The freshness of the random
tokens is the hypothesis that the second token differs from the first and
that the first token was not already stored. -/
theorem one_session_per_user (f1 f2 : String) (i1 i2 : CallbackInput)
    (db0 db1 db2 : DB) (r1 r2 : Except HErr CallbackResp)
    (h1 : CallbackOk i1) (h2 : CallbackOk i2)
    (hsame : i2.ghUser.login = i1.ghUser.login)
    (hfresh : ∀ s ∈ db0.session, s.doc.token ≠ i1.freshToken)
    (hne : i2.freshToken ≠ i1.freshToken)
    (hone : (db0.session.countP fun s => s.doc.user_id == i1.ghUser.login) ≤ 1)
    (hrun1 : githubAuthCallback f1 i1 db0 = (r1, db1))
    (hrun2 : githubAuthCallback f2 i2 db1 = (r2, db2)) :
    ((db2.session.countP fun s => s.doc.user_id == i1.ghUser.login) = 1) ∧
    db2.session.find? (fun s => s.doc.token == i1.freshToken) = none ∧
    (∀ now2, is401 (getCurrentUser (some i1.freshToken) now2 db2) = true) := by
  rw [githubAuthCallback_ok f1 i1 db0 h1] at hrun1
  injection hrun1 with hr1 hdb1
  subst hdb1
  rw [githubAuthCallback_ok f2 i2 (callbackDB i1 db0) h2] at hrun2
  injection hrun2 with hr2 hdb2
  subst hdb2
  have hs1 := callbackDB_session i1 db0
  have hs2 : (callbackDB i2 (callbackDB i1 db0)).session =
      updateOne (fun s : SessionDoc => s.user_id == i1.ghUser.login)
        (fun _ => { token := i2.freshToken, user_id := i1.ghUser.login,
                    expires_at := some (i2.now + sevenDays) })
        { token := i2.freshToken, user_id := i1.ghUser.login,
          expires_at := some (i2.now + sevenDays) }
        ((callbackDB i1 db0).nextOid + 1) (callbackDB i1 db0).session := by
    rw [callbackDB_session i2 (callbackDB i1 db0), hsame]
  have hcount1 : ((callbackDB i1 db0).session.countP
      fun s => s.doc.user_id == i1.ghUser.login) = 1 := by
    rw [hs1]
    refine countP_updateOne_const (fun s : SessionDoc => s.user_id == i1.ghUser.login)
      _ _ _ ?_ hone
    simp
  have hcount2 : ((callbackDB i2 (callbackDB i1 db0)).session.countP
      fun s => s.doc.user_id == i1.ghUser.login) = 1 := by
    rw [hs2]
    refine countP_updateOne_const (fun s : SessionDoc => s.user_id == i1.ghUser.login)
      _ _ _ ?_ (le_of_eq hcount1)
    simp
  have htok : ∀ y ∈ (callbackDB i2 (callbackDB i1 db0)).session,
      y.doc.token ≠ i1.freshToken := by
    intro y hy
    rw [hs2] at hy
    rcases mem_updateOne_const (fun s : SessionDoc => s.user_id == i1.ghUser.login) _ _ _
        (le_of_eq hcount1) y hy with hdoc | ⟨hmem, hpred⟩
    · rw [hdoc]
      exact hne
    · rw [hs1] at hmem
      rcases mem_updateOne_const (fun s : SessionDoc => s.user_id == i1.ghUser.login) _ _ _
          hone y hmem with hdoc1 | ⟨hmem0, hpred0⟩
      · exfalso
        rw [hdoc1] at hpred
        simp at hpred
      · exact hfresh y hmem0
  have hfind : (callbackDB i2 (callbackDB i1 db0)).session.find?
      (fun s => s.doc.token == i1.freshToken) = none := by
    rw [List.find?_eq_none]
    intro x hx
    simpa using htok x hx
  refine ⟨hcount2, hfind, ?_⟩
  intro now2
  by_cases ht : i1.freshToken = ""
  · simp [getCurrentUser, ht, is401]
  · simp [getCurrentUser, ht, hfind, is401]

/-- C2 witness: two concrete logins by "alice" on the empty store; the old
token "tok1" finds no session and is rejected at an arbitrary later time. -/
theorem one_session_per_user_witness :
    ((((githubAuthCallback "F" cbInp2 ((githubAuthCallback "F" cbInp1 emptyDB).2)).2).session.countP
        fun s => s.doc.user_id == cbInp1.ghUser.login) = 1) ∧
    ((githubAuthCallback "F" cbInp2 ((githubAuthCallback "F" cbInp1 emptyDB).2)).2).session.find?
        (fun s => s.doc.token == cbInp1.freshToken) = none ∧
    is401 (getCurrentUser (some cbInp1.freshToken) 1000000
      ((githubAuthCallback "F" cbInp2 ((githubAuthCallback "F" cbInp1 emptyDB).2)).2)) = true := by
  have h := one_session_per_user "F" "F" cbInp1 cbInp2 emptyDB
    (githubAuthCallback "F" cbInp1 emptyDB).2
    (githubAuthCallback "F" cbInp2 ((githubAuthCallback "F" cbInp1 emptyDB).2)).2
    (githubAuthCallback "F" cbInp1 emptyDB).1
    (githubAuthCallback "F" cbInp2 ((githubAuthCallback "F" cbInp1 emptyDB).2)).1
    (by decide) (by decide) rfl (by decide) (by decide) (by decide) rfl rfl
  exact ⟨h.1, h.2.1, h.2.2 1000000⟩

end PortfolioApp
